import Mathlib

/-!
Verification of the cadastre repository's two core components, embedded from
`src/components/gallery/GalleryDisplayItem.js`:

* the media-pin status tracker of `GalleryDisplayItem` (pin-state derivation
  from the pinning manager's observations, and the preload/timeout race of
  `triggerPreload`);
* the parcel status resolution pipeline of `Recent` (the per-record status
  and price derivation, the foreclosure override, and `sortParcels`).
-/

/-! ## Pin status tracker -/

/-- Pin lifecycle states, mirroring the source constants `STATE_PINNED = 0`,
`STATE_PINNING = 1`, `STATE_FAILED = 2`, `STATE_NOT_FOUND = 3`. -/
inductive PinState where
  | Pinned
  | Pinning
  | Failed
  | NotFound
deriving DecidableEq, Repr

/-- The pin-state derivation of the observation effect body in
`GalleryDisplayItem`: `if (isPinned) PINNED else if (failedPins.has(name))
FAILED else PINNING`. -/
def derivePinState (isPinned inFailedSet : Bool) : PinState :=
  if isPinned then .Pinned
  else if inFailedSet then .Failed
  else .Pinning

/-- The full observation effect, including the availability guard
`if (!pinningManager) return;`: when the pinning manager is unavailable the
effect performs no state assignment, modelled as `none`. -/
def observeEffect (available isPinned inFailedSet : Bool) : Option PinState :=
  if available then some (derivePinState isPinned inFailedSet) else none

/-- State of one `triggerPreload` race instance together with the component's
pin state: `success` is the closure variable read by the timer callback, and
`timerWrites` counts the `setPinState(STATE_NOT_FOUND)` calls issued by the
timer callback (so that the guard's effect is observable, not just the
resulting state). -/
structure RaceState where
  pinState : PinState
  success : Bool
  timerWrites : Nat
deriving DecidableEq, Repr

/-- Events delivered to one race instance by the event loop: the preload
promise resolving or rejecting, the 10,000 ms timer firing, and an external
observation of the pinned/failed sets re-running the observation effect
(with the pinning manager available). -/
inductive RaceEvent where
  | preloadResolve
  | preloadReject
  | timerFire
  | observe (isPinned inFailedSet : Bool)
deriving DecidableEq, Repr

/-- One event-loop step of `triggerPreload`'s callbacks: `.then` sets the
success flag only; `.catch` sets the pin state to NOT_FOUND; the timer
callback sets NOT_FOUND only when the success flag is unset; an observation
re-derives the pin state from the pinned/failed inputs. -/
def raceStep (s : RaceState) : RaceEvent → RaceState
  | .preloadResolve => { s with success := true }
  | .preloadReject => { s with pinState := .NotFound }
  | .timerFire =>
      if s.success then s
      else { s with pinState := .NotFound, timerWrites := s.timerWrites + 1 }
  | .observe p f => { s with pinState := derivePinState p f }

/-- Run a list of events through the race machine in order. -/
def runRace (s : RaceState) : List RaceEvent → RaceState
  | [] => s
  | e :: es => runRace (raceStep s e) es

/-- The state in which `triggerPreload` starts: the component just entered
`Pinning`, the fresh closure sets `success = false`, no timer write yet. -/
def raceInit : RaceState := ⟨.Pinning, false, 0⟩

/-! ## Media identifier -/

/-- JS `String.prototype.replace` with a string pattern removes the first
occurrence of the pattern; this is the same operation on character lists. -/
def replaceFirst (pat : List Char) : List Char → List Char
  | [] => []
  | c :: cs =>
      if pat.isPrefixOf (c :: cs) then (c :: cs).drop pat.length
      else c :: replaceFirst pat cs

/-- The identifier built in `GalleryDisplayItem`:
`cid = data.contentUrl.replace("ipfs://", "")` followed by
`name = streamId + "-" + cid`. -/
def mkIdentifier (streamId contentUrl : List Char) : List Char :=
  streamId ++ '-' :: replaceFirst "ipfs://".toList contentUrl

/-! ## Parcel status resolution -/

/-- A bid as delivered by the record source: for-sale price, contribution
rate and timestamp (all exact integers; the source wraps them in
`BigNumber`). -/
structure Bid where
  forSalePrice : Int
  contributionRate : Int
  timestamp : Int
deriving DecidableEq, Repr

/-- A raw parcel record as consumed by the resolution loop in `Recent`:
id, creation block, the current bid and the optional pending bid. -/
structure ParcelRecord where
  parcelId : String
  createdAtBlock : Nat
  currentBid : Bid
  pendingBid : Option Bid
deriving DecidableEq, Repr

/-- The four lifecycle statuses assigned by the pipeline, mirroring the
source strings "Valid", "Outstanding Bid", "Needs Transfer",
"In Foreclosure". -/
inductive ParcelStatus where
  | Valid
  | OutstandingBid
  | NeedsTransfer
  | InForeclosure
deriving DecidableEq, Repr

/-- Step 1, the initial status and price from the bid shape:
`if (!pendingBid || rate.eq(0)) {Valid, current price} else if (rate.gt(0))
{Outstanding Bid, pending price} else continue` — the `continue` drops the
record, modelled as `none`. -/
def step1 (r : ParcelRecord) : Option (ParcelStatus × Int) :=
  match r.pendingBid with
  | none => some (.Valid, r.currentBid.forSalePrice)
  | some pendingBid =>
      if pendingBid.contributionRate = 0 then
        some (.Valid, r.currentBid.forSalePrice)
      else if 0 < pendingBid.contributionRate then
        some (.OutstandingBid, pendingBid.forSalePrice)
      else
        none

/-- Modelled from the spec: the constant `SECONDS_IN_WEEK` is imported by the
source from `lib/constants`, which is not among the sources; the spec calls
it one week in seconds. -/
def SECONDS_IN_WEEK : Int := 7 * 24 * 60 * 60

/-- Step 2, the early-termination override applied in the
`shouldBidPeriodEndEarly` continuation: when a pending bid with strictly
positive contribution rate exists, `deadline = timestamp + SECONDS_IN_WEEK`
(seconds) is compared as `deadline * 1000 <= Date.now()` (milliseconds);
past the deadline or with the early flag set, status becomes Needs Transfer
and the price becomes the pending bid's. -/
def step2 (r : ParcelRecord) (shouldBidPeriodEndEarly : Bool) (nowMs : Int)
    (sp : ParcelStatus × Int) : ParcelStatus × Int :=
  match r.pendingBid with
  | none => sp
  | some pendingBid =>
      if 0 < pendingBid.contributionRate then
        if (pendingBid.timestamp + SECONDS_IN_WEEK) * 1000 ≤ nowMs
            ∨ shouldBidPeriodEndEarly = true then
          (.NeedsTransfer, pendingBid.forSalePrice)
        else sp
      else sp

/-- Step 3, the foreclosure override applied in the `isPayerBidActive`
continuation: when the read reports false, the status becomes In
Foreclosure; the price variable is not touched. -/
def step3 (isPayerBidActive : Bool) (sp : ParcelStatus × Int) :
    ParcelStatus × Int :=
  if isPayerBidActive then sp else (.InForeclosure, sp.2)

/-- The status/price part of one record's resolution chain: step 1 decides
whether the record survives, then steps 2 and 3 rewrite the status/price
pair in order. -/
def resolveStatus (r : ParcelRecord) (shouldBidPeriodEndEarly isPayerBidActive : Bool)
    (nowMs : Int) : Option (ParcelStatus × Int) :=
  (step1 r).map (fun sp => step3 isPayerBidActive (step2 r shouldBidPeriodEndEarly nowMs sp))

/-! ## Batch sort -/

/-- A resolved parcel as pushed into the `_parcels` collection (the fields
the claims mention; display name and centroid are omitted). -/
structure Parcel where
  parcelId : String
  createdAtBlock : Nat
  status : ParcelStatus
  price : Int
deriving DecidableEq, Repr

/-- Insertion step of the comparison sort: the source comparator
`(a, b) => a.createdAtBlock > b.createdAtBlock ? -1 : 1` places `a` before
`b` exactly when `a.createdAtBlock > b.createdAtBlock`, so `x` is inserted
before the first element whose block it exceeds. -/
def insertParcel (x : Parcel) : List Parcel → List Parcel
  | [] => [x]
  | y :: ys =>
      if y.createdAtBlock < x.createdAtBlock then x :: y :: ys
      else y :: insertParcel x ys

/-- `sortParcels`, modelling the source's `[...parcels].sort(comparator)` as
a comparison sort consistent with the comparator above (JS leaves the
algorithm implementation-defined; any comparison sort honouring this
comparator yields a descending arrangement, with ties in unspecified
order). -/
def sortParcels : List Parcel → List Parcel
  | [] => []
  | x :: xs => insertParcel x (sortParcels xs)

/-! ## Helper lemmas -/

theorem insertParcel_perm (x : Parcel) (l : List Parcel) :
    (insertParcel x l).Perm (x :: l) := by
  induction l with
  | nil => simp [insertParcel]
  | cons y ys ih =>
      by_cases h : y.createdAtBlock < x.createdAtBlock
      · simp [insertParcel, h]
      · simp only [insertParcel, h, if_neg, if_false]
        exact ((ih.cons y).trans (List.Perm.swap x y ys))

theorem sortParcels_perm (l : List Parcel) : (sortParcels l).Perm l := by
  induction l with
  | nil => simp [sortParcels]
  | cons x xs ih =>
      exact (insertParcel_perm x (sortParcels xs)).trans (ih.cons x)

theorem insertParcel_pairwise (x : Parcel) (l : List Parcel)
    (h : l.Pairwise (fun a b => b.createdAtBlock ≤ a.createdAtBlock)) :
    (insertParcel x l).Pairwise (fun a b => b.createdAtBlock ≤ a.createdAtBlock) := by
  induction l with
  | nil => simp [insertParcel]
  | cons y ys ih =>
      rcases List.pairwise_cons.mp h with ⟨hy, hys⟩
      by_cases hxy : y.createdAtBlock < x.createdAtBlock
      · simp only [insertParcel, hxy, if_pos]
        refine List.pairwise_cons.mpr ⟨?_, h⟩
        intro z hz
        rcases List.mem_cons.mp hz with rfl | hz
        · omega
        · have := hy z hz
          omega
      · simp only [insertParcel, hxy, if_neg, if_false]
        refine List.pairwise_cons.mpr ⟨?_, ih hys⟩
        intro z hz
        have hz' : z = x ∨ z ∈ ys :=
          by simpa using (insertParcel_perm x ys).mem_iff.mp hz
        rcases hz' with rfl | hz'
        · omega
        · exact hy z hz'

theorem sortParcels_pairwise (l : List Parcel) :
    (sortParcels l).Pairwise (fun a b => b.createdAtBlock ≤ a.createdAtBlock) := by
  induction l with
  | nil => simp [sortParcels]
  | cons x xs ih => exact insertParcel_pairwise x (sortParcels xs) ih

theorem runRace_success (es : List RaceEvent) (s : RaceState)
    (h : s.success = true) : (runRace s es).success = true := by
  induction es generalizing s with
  | nil => exact h
  | cons e es ih =>
      refine ih (raceStep s e) ?_
      cases e with
      | preloadResolve => rfl
      | preloadReject => simpa [raceStep] using h
      | timerFire => simp [raceStep, h]
      | observe p f => simpa [raceStep] using h

theorem step1_some_cases (r : ParcelRecord) (sp : ParcelStatus × Int)
    (h : step1 r = some sp) :
    (sp = (ParcelStatus.Valid, r.currentBid.forSalePrice) ∧
      (r.pendingBid = none ∨
        ∃ pb, r.pendingBid = some pb ∧ pb.contributionRate = 0)) ∨
    (∃ pb, r.pendingBid = some pb ∧ 0 < pb.contributionRate ∧
      sp = (ParcelStatus.OutstandingBid, pb.forSalePrice)) := by
  cases hr : r.pendingBid with
  | none =>
      left
      simp [step1, hr] at h
      exact ⟨h.symm, Or.inl rfl⟩
  | some pb =>
      by_cases h0 : pb.contributionRate = 0
      · left
        simp [step1, hr, h0] at h
        exact ⟨h.symm, Or.inr ⟨pb, rfl, h0⟩⟩
      · by_cases hpos : 0 < pb.contributionRate
        · right
          simp [step1, hr, h0, hpos] at h
          exact ⟨pb, rfl, hpos, h.symm⟩
        · simp [step1, hr, h0, hpos] at h

theorem step2_cases (r : ParcelRecord) (early : Bool) (nowMs : Int)
    (sp : ParcelStatus × Int) :
    step2 r early nowMs sp = sp ∨
    (∃ pb, r.pendingBid = some pb ∧ 0 < pb.contributionRate ∧
      step2 r early nowMs sp = (ParcelStatus.NeedsTransfer, pb.forSalePrice)) := by
  cases hr : r.pendingBid with
  | none => left; simp [step2, hr]
  | some pb =>
      by_cases hpos : 0 < pb.contributionRate
      · by_cases hc : (pb.timestamp + SECONDS_IN_WEEK) * 1000 ≤ nowMs ∨ early = true
        · right; exact ⟨pb, rfl, hpos, by simp [step2, hr, hpos, hc]⟩
        · left; simp [step2, hr, hpos, hc]
      · left; simp [step2, hr, hpos]

/-! ## Concrete sample data -/

def bidCurrent : Bid := ⟨100, 7, 1000⟩

def bidZero : Bid := ⟨250, 0, 2000⟩

def bidPos : Bid := ⟨250, 5, 2000⟩

def bidNeg : Bid := ⟨250, -3, 2000⟩

def recNoPending : ParcelRecord := ⟨"p1", 1, bidCurrent, none⟩

def recZero : ParcelRecord := ⟨"p2", 2, bidCurrent, some bidZero⟩

def recPos : ParcelRecord := ⟨"p3", 3, bidCurrent, some bidPos⟩

def recNeg : ParcelRecord := ⟨"p4", 4, bidCurrent, some bidNeg⟩

/-! ## Claims about the parcel pipeline -/

/-- C1: step 1 of the status derivation. No pending bid, or a pending bid
with contribution rate exactly zero, gives status Valid at the current bid's
for-sale price; a strictly positive contribution rate gives Outstanding Bid
at the pending bid's for-sale price; every other shape (a rate neither zero
nor positive, i.e. negative) drops the record from the output (`none`),
without raising an error. -/
theorem C1_initial_status_derivation (r : ParcelRecord) :
    (r.pendingBid = none →
      step1 r = some (ParcelStatus.Valid, r.currentBid.forSalePrice)) ∧
    (∀ pb, r.pendingBid = some pb → pb.contributionRate = 0 →
      step1 r = some (ParcelStatus.Valid, r.currentBid.forSalePrice)) ∧
    (∀ pb, r.pendingBid = some pb → 0 < pb.contributionRate →
      step1 r = some (ParcelStatus.OutstandingBid, pb.forSalePrice)) ∧
    (∀ pb, r.pendingBid = some pb → ¬pb.contributionRate = 0 →
      ¬0 < pb.contributionRate → step1 r = none) := by
  refine ⟨?_, ?_, ?_, ?_⟩
  · intro h
    simp [step1, h]
  · intro pb hpb h0
    simp [step1, hpb, h0]
  · intro pb hpb hpos
    have h0 : ¬pb.contributionRate = 0 := by omega
    simp [step1, hpb, hpos, h0]
  · intro pb hpb h0 hpos
    simp [step1, hpb, h0, hpos]

/-- Witness for C1 at a record whose pending bid has contribution rate -3:
the record is dropped. -/
theorem C1_initial_status_derivation_witness :
    recNeg.pendingBid = some bidNeg ∧ ¬bidNeg.contributionRate = 0 ∧
      ¬0 < bidNeg.contributionRate ∧ step1 recNeg = none :=
  ⟨rfl, by decide, by decide,
    (C1_initial_status_derivation recNeg).2.2.2 bidNeg rfl (by decide) (by decide)⟩

/-- C2: step 2, the early-termination override. With a pending bid of
strictly positive contribution rate, the status/price pair becomes
(Needs Transfer, pending price) exactly when the deadline
`timestamp + SECONDS_IN_WEEK` (compared in milliseconds against the current
time) has passed or the contract's early-end flag is true; without such a
pending bid the pair is left unchanged. -/
theorem C2_early_termination_override (r : ParcelRecord) (early : Bool)
    (nowMs : Int) (sp : ParcelStatus × Int) :
    (∀ pb, r.pendingBid = some pb → 0 < pb.contributionRate →
      step2 r early nowMs sp =
        if (pb.timestamp + SECONDS_IN_WEEK) * 1000 ≤ nowMs ∨ early = true then
          (ParcelStatus.NeedsTransfer, pb.forSalePrice)
        else sp) ∧
    (r.pendingBid = none → step2 r early nowMs sp = sp) ∧
    (∀ pb, r.pendingBid = some pb → ¬0 < pb.contributionRate →
      step2 r early nowMs sp = sp) := by
  refine ⟨fun pb hpb hpos => ?_, fun h => by simp [step2, h],
    fun pb hpb hpos => by simp [step2, hpb, hpos]⟩
  by_cases hc : (pb.timestamp + SECONDS_IN_WEEK) * 1000 ≤ nowMs ∨ early = true
  · simp [step2, hpb, hpos, hc]
  · simp [step2, hpb, hpos, hc]

/-- Witness for C2 at a record with pending contribution rate 5 and the
early-end flag true: status becomes Needs Transfer at the pending price. -/
theorem C2_early_termination_override_witness :
    recPos.pendingBid = some bidPos ∧ 0 < bidPos.contributionRate ∧
      step2 recPos true 0 (ParcelStatus.Valid, 100) =
        if (bidPos.timestamp + SECONDS_IN_WEEK) * 1000 ≤ 0 ∨ (true : Bool) = true then
          (ParcelStatus.NeedsTransfer, bidPos.forSalePrice)
        else (ParcelStatus.Valid, 100) :=
  ⟨rfl, by decide,
    (C2_early_termination_override recPos true 0 (ParcelStatus.Valid, 100)).1 bidPos rfl (by decide)⟩

/-- C3: step 3, the foreclosure override. For every record surviving step 1,
when `isPayerBidActive` reads false the resolved status is In Foreclosure,
whatever steps 1-2 produced; the override itself maps any status/price pair
to In Foreclosure unconditionally. -/
theorem C3_foreclosure_override (r : ParcelRecord) (early : Bool) (nowMs : Int)
    (sp : ParcelStatus × Int) (h : step1 r = some sp) :
    resolveStatus r early false nowMs =
      some (ParcelStatus.InForeclosure, (step2 r early nowMs sp).2) ∧
    (∀ sq : ParcelStatus × Int, (step3 false sq).1 = ParcelStatus.InForeclosure) := by
  exact ⟨by simp [resolveStatus, h, step3], fun sq => by simp [step3]⟩

/-- Witness for C3 at a record whose steps 1-2 produce Outstanding Bid: with
an inactive payer bid the final status is In Foreclosure. -/
theorem C3_foreclosure_override_witness :
    step1 recPos = some (ParcelStatus.OutstandingBid, 250) ∧
      resolveStatus recPos false false 0 =
        some (ParcelStatus.InForeclosure,
          (step2 recPos false 0 (ParcelStatus.OutstandingBid, 250)).2) :=
  ⟨by decide,
    (C3_foreclosure_override recPos false 0 (ParcelStatus.OutstandingBid, 250) (by decide)).1⟩

/-- C10: the foreclosure override changes only the status. For every record
surviving step 1 and resolved with an inactive payer bid, the output price is
the price steps 1-2 computed: the current bid's for-sale price when the
status after step 2 is Valid, and the pending bid's for-sale price when it is
Outstanding Bid or Needs Transfer. -/
theorem C10_foreclosure_price_frame (r : ParcelRecord) (early : Bool)
    (nowMs : Int) (sp : ParcelStatus × Int) (h : step1 r = some sp) :
    resolveStatus r early false nowMs =
      some (ParcelStatus.InForeclosure, (step2 r early nowMs sp).2) ∧
    ((step2 r early nowMs sp).1 = ParcelStatus.Valid →
      (step2 r early nowMs sp).2 = r.currentBid.forSalePrice) ∧
    (∀ pb, r.pendingBid = some pb →
      ((step2 r early nowMs sp).1 = ParcelStatus.OutstandingBid ∨
        (step2 r early nowMs sp).1 = ParcelStatus.NeedsTransfer) →
      (step2 r early nowMs sp).2 = pb.forSalePrice) := by
  refine ⟨by simp [resolveStatus, h, step3], ?_, ?_⟩
  · intro hv
    rcases step2_cases r early nowMs sp with h2 | ⟨pb, hpb, hpos, h2⟩
    · rw [h2] at hv ⊢
      rcases step1_some_cases r sp h with ⟨hsp, _⟩ | ⟨pb, _, _, hsp⟩
      · rw [hsp]
      · rw [hsp] at hv; cases hv
    · rw [h2] at hv; cases hv
  · intro pb hpb hor
    rcases step2_cases r early nowMs sp with h2 | ⟨pb', hpb', hpos', h2⟩
    · rw [h2] at hor ⊢
      rcases step1_some_cases r sp h with ⟨hsp, _⟩ | ⟨pb', hpb', _, hsp⟩
      · rw [hsp] at hor; rcases hor with hv | hv <;> cases hv
      · have : pb' = pb := by rw [hpb] at hpb'; exact (Option.some.injEq _ _ ▸ hpb').symm ▸ rfl
        rw [hsp, this]
    · have : pb' = pb := by
        rw [hpb] at hpb'
        exact Option.some.inj hpb'.symm
      rw [h2, this]

/-! ## Claims about the pin status tracker -/

/-- C4: with an available pinning collaborator, the derived pin state follows
the priority order: pinned wins regardless of failed-set membership, then
failed-set membership gives Failed, otherwise Pinning. -/
theorem C4_pin_state_priority (isPinned inFailedSet : Bool) :
    (isPinned = true →
      observeEffect true isPinned inFailedSet = some PinState.Pinned) ∧
    (isPinned = false → inFailedSet = true →
      observeEffect true isPinned inFailedSet = some PinState.Failed) ∧
    (isPinned = false → inFailedSet = false →
      observeEffect true isPinned inFailedSet = some PinState.Pinning) := by
  refine ⟨?_, ?_, ?_⟩
  · intro h
    simp [observeEffect, derivePinState, h]
  · intro h1 h2
    simp [observeEffect, derivePinState, h1, h2]
  · intro h1 h2
    simp [observeEffect, derivePinState, h1, h2]

/-- Witness for C4 at a pinned identifier that is also in the failed set:
the state is Pinned (pinned takes priority). -/
theorem C4_pin_state_priority_witness :
    (true : Bool) = true ∧ observeEffect true true true = some PinState.Pinned :=
  ⟨rfl, (C4_pin_state_priority true true).1 rfl⟩

/-- C5: if the preload resolves before the 10,000 ms timer fires, the timer
callback performs no state change at all, whatever other events of the race
instance are interleaved in between: the success flag, once set by the
resolution, stays set, so the timer's branch is a no-op and the state is
never forced to NotFound by the timeout mechanism. -/
theorem C5_resolve_before_timer_no_change (s : RaceState) (mid : List RaceEvent) :
    raceStep (runRace (raceStep s .preloadResolve) mid) .timerFire =
      runRace (raceStep s .preloadResolve) mid := by
  have h : (runRace (raceStep s .preloadResolve) mid).success = true :=
    runRace_success mid (raceStep s .preloadResolve) rfl
  revert h
  generalize runRace (raceStep s .preloadResolve) mid = t
  intro h
  simp [raceStep, h]

/-- C6 counterexample: after the preload rejects, the success flag is still
false (only the `.then` continuation sets it), so the timer's check does not
prevent the duplicate NOT_FOUND transition: the timer callback issues its
`setPinState(STATE_NOT_FOUND)` write (the write count increases). -/
theorem C6_check_does_not_prevent_write :
    (raceStep raceInit .preloadReject).success = false ∧
    (raceStep (raceStep raceInit .preloadReject) .timerFire).timerWrites =
      (raceStep raceInit .preloadReject).timerWrites + 1 := by
  decide

/-- C6 (amended): when the preload rejects, the state becomes NotFound
immediately; the success flag is left unchanged (still false), so the later
timer firing passes its check and re-issues the NotFound write, which causes
no state change only because the state is already NotFound. -/
theorem C6_reject_then_timer (s : RaceState) (h : s.success = false) :
    (raceStep s .preloadReject).pinState = PinState.NotFound ∧
    (raceStep s .preloadReject).success = false ∧
    (raceStep (raceStep s .preloadReject) .timerFire).pinState = PinState.NotFound ∧
    (raceStep (raceStep s .preloadReject) .timerFire).timerWrites = s.timerWrites + 1 := by
  simp [raceStep, h]

/-- Witness for C6 (amended) at the initial race state. -/
theorem C6_reject_then_timer_witness :
    raceInit.success = false ∧
      ((raceStep raceInit .preloadReject).pinState = PinState.NotFound ∧
        (raceStep raceInit .preloadReject).success = false ∧
        (raceStep (raceStep raceInit .preloadReject) .timerFire).pinState =
          PinState.NotFound ∧
        (raceStep (raceStep raceInit .preloadReject) .timerFire).timerWrites =
          raceInit.timerWrites + 1) :=
  ⟨rfl, C6_reject_then_timer raceInit rfl⟩

/-- C7 counterexample: a pending timer expiry started during an earlier
Pinning state does change a state that has since become Pinned: starting the
race, then observing the item as pinned (state Pinned), the stale timer still
finds the success flag false and overwrites the state with NotFound. -/
theorem C7_stale_timer_clobbers_pinned :
    (raceStep raceInit (.observe true false)).pinState = PinState.Pinned ∧
    (raceStep (raceStep raceInit (.observe true false)) .timerFire).pinState =
      PinState.NotFound := by
  decide

/-- C7 (amended): once the state is Pinned, a pending preload resolution
leaves it unchanged, and a pending timer expiry leaves it unchanged when that
race's preload already resolved (success flag set); but a pending timer
expiry with the success flag unset, or a pending preload rejection,
overwrites the state to NotFound. -/
theorem C7_pinned_stability (s : RaceState) (h : s.pinState = PinState.Pinned) :
    (raceStep s .preloadResolve).pinState = PinState.Pinned ∧
    (s.success = true → (raceStep s .timerFire).pinState = PinState.Pinned) ∧
    (s.success = false → (raceStep s .timerFire).pinState = PinState.NotFound) ∧
    (raceStep s .preloadReject).pinState = PinState.NotFound := by
  refine ⟨by simpa [raceStep] using h, ?_, ?_, by simp [raceStep]⟩
  · intro hs
    simpa [raceStep, hs] using h
  · intro hs
    simp [raceStep, hs]

/-- A race state whose pin state has become Pinned with its preload already
confirmed. -/
def racePinned : RaceState := ⟨.Pinned, true, 0⟩

/-- Witness for C7 (amended) at a Pinned state with the success flag set. -/
theorem C7_pinned_stability_witness :
    racePinned.pinState = PinState.Pinned ∧
      ((raceStep racePinned .preloadResolve).pinState = PinState.Pinned ∧
        (racePinned.success = true →
          (raceStep racePinned .timerFire).pinState = PinState.Pinned) ∧
        (racePinned.success = false →
          (raceStep racePinned .timerFire).pinState = PinState.NotFound) ∧
        (raceStep racePinned .preloadReject).pinState = PinState.NotFound) :=
  ⟨rfl, C7_pinned_stability racePinned rfl⟩

/-! ## Claims about the identifier and the batch sort -/

/-- C9 counterexample: the code strips only the literal "ipfs://"; for a
content URL with another scheme, "ar://abc", the scheme survives in the
identifier, against the claim that any URI scheme prefix is stripped (which
would give the identifier "s-abc"). -/
theorem C9_other_scheme_not_stripped :
    mkIdentifier "s".toList "ar://abc".toList ≠ "s".toList ++ '-' :: "abc".toList ∧
    mkIdentifier "s".toList "ar://abc".toList =
      "s".toList ++ '-' :: "ar://abc".toList := by
  decide

/-- C9 (amended): the identifier is the stream id, a dash, and the content
URL with the first occurrence of the literal "ipfs://" removed; in particular
for a content URL of the form "ipfs://&lt;cid&gt;" the scheme is stripped. -/
theorem C9_identifier_ipfs_strip (streamId cid : List Char) :
    mkIdentifier streamId ("ipfs://".toList ++ cid) = streamId ++ '-' :: cid := by
  have hl : "ipfs://".toList = ['i', 'p', 'f', 's', ':', '/', '/'] := by decide
  rw [mkIdentifier, hl]
  have h : replaceFirst ['i', 'p', 'f', 's', ':', '/', '/']
      (['i', 'p', 'f', 's', ':', '/', '/'] ++ cid) = cid := by
    simp [replaceFirst, List.isPrefixOf]
  rw [h]

/-- Parcel created at block 5. -/
def parcelBlock5 : Parcel := ⟨"a", 5, ParcelStatus.Valid, 10⟩

/-- Parcel created at block 9. -/
def parcelBlock9 : Parcel := ⟨"b", 9, ParcelStatus.Valid, 20⟩

/-- Parcel created at block 1. -/
def parcelBlock1 : Parcel := ⟨"c", 1, ParcelStatus.Valid, 30⟩

/-- C8: `sortParcels` returns a permutation of its input arranged by creation
block descending — every element's creation block is at least the next
element's — and records with creation blocks [5, 9, 1] come out as
[9, 5, 1]. -/
theorem C8_sort_descending_permutation (l : List Parcel) :
    (sortParcels l).Perm l ∧
    List.Chain' (fun a b => b.createdAtBlock ≤ a.createdAtBlock) (sortParcels l) ∧
    (sortParcels [parcelBlock5, parcelBlock9, parcelBlock1]).map
      Parcel.createdAtBlock = [9, 5, 1] := by
  refine ⟨sortParcels_perm l, (sortParcels_pairwise l).chain', ?_⟩
  decide

/-- Witness for C10 at a record resolving through Outstanding Bid with an
inactive payer bid. -/
theorem C10_foreclosure_price_frame_witness :
    step1 recPos = some (ParcelStatus.OutstandingBid, 250) ∧
      (resolveStatus recPos false false 0 =
        some (ParcelStatus.InForeclosure,
          (step2 recPos false 0 (ParcelStatus.OutstandingBid, 250)).2) ∧
      ((step2 recPos false 0 (ParcelStatus.OutstandingBid, 250)).1 =
          ParcelStatus.Valid →
        (step2 recPos false 0 (ParcelStatus.OutstandingBid, 250)).2 =
          recPos.currentBid.forSalePrice) ∧
      (∀ pb, recPos.pendingBid = some pb →
        ((step2 recPos false 0 (ParcelStatus.OutstandingBid, 250)).1 =
            ParcelStatus.OutstandingBid ∨
          (step2 recPos false 0 (ParcelStatus.OutstandingBid, 250)).1 =
            ParcelStatus.NeedsTransfer) →
        (step2 recPos false 0 (ParcelStatus.OutstandingBid, 250)).2 =
          pb.forSalePrice)) :=
  ⟨by decide,
    C10_foreclosure_price_frame recPos false 0 (ParcelStatus.OutstandingBid, 250) (by decide)⟩
